import Mathlib

/-!
Context-aware reader (package cancelreader)

Embedding of `q-and-a/context-aware-reader/context_aware_reader.go`.

The Go code talks to two interface values, a `context.Context` and an
`io.Reader`.  Both are modelled as records of functions over an explicit
state:

* the cancellation signal has a state of type `κ`, and `Context.Err` observes
  it (Go's contract for `Err`: nil while the context is live, afterwards a
  non-nil error; the call itself changes nothing);
* the delegate has a state of type `δ`; its `Read` receives the byte slice and
  the whole environment, so a delegate is free to advance its own cursor and
  also to cancel the signal while it runs;
* errors are `Option ε`, with `none` for Go's nil.

A call trace is carried next to the environment.  It is ghost state: every
dynamic dispatch through one of the two interfaces appends one event, and
nothing ever reads the trace.  It plays the part of a call-count spy.
-/

namespace cancelreader

/-! ## Data model -/

/-- One element of a Go byte slice. -/
abbrev Byte := Fin 256

/-- Contents of a byte slice; the length of the list is the length of the slice. -/
abbrev Buf := List Byte

/-- Mutable state reachable from a call: the state of the cancellation signal
and the state behind the delegate reader. -/
structure Env (κ δ : Type) where
  sig : κ
  dlg : δ

/-- Interface method calls, as they are recorded in the call trace. -/
inductive Event where
  | ctxErr
  | delegateRead (p : Buf)
  deriving DecidableEq, Repr

/-- The environment together with the trace of interface calls made so far. -/
structure World (κ δ : Type) where
  env : Env κ δ
  trace : List Event

/-- Number of calls of the delegate's Read recorded in a trace. -/
def delegateCalls : List Event → Nat
  | [] => 0
  | Event.delegateRead _ :: t => delegateCalls t + 1
  | Event.ctxErr :: t => delegateCalls t

/-- Number of calls of the signal's Err recorded in a trace. -/
def ctxQueries : List Event → Nat
  | [] => 0
  | Event.ctxErr :: t => ctxQueries t + 1
  | Event.delegateRead _ :: t => ctxQueries t

/-- The interface `context.Context`, restricted to the one method the package
calls: `Err` reports nil while the signal is active and the cancellation error
once it is cancelled. -/
structure Context (κ ε : Type) where
  Err : κ → Option ε

/-- What a call of `io.Reader.Read(p)` leaves behind: the returned pair
`(n, err)`, the contents of `p` on return, and the environment on return. -/
structure ReadOut (κ δ ε : Type) where
  n : Int
  err : Option ε
  buf : Buf
  env : Env κ δ

/-- The interface `io.Reader`. -/
structure Reader (κ δ ε : Type) where
  Read : Buf → Env κ δ → ReadOut κ δ ε

/-- The struct `readerCtx`: a context and a delegate reader, nothing else. -/
structure readerCtx (κ δ ε : Type) where
  ctx : Context κ ε
  delegate : Reader κ δ ε

/-- What a call of the wrapper's Read leaves behind.  The method has a pointer
receiver, so the receiver struct is threaded through as `self`. -/
structure WrapOut (κ δ ε : Type) where
  self : readerCtx κ δ ε
  n : Int
  err : Option ε
  buf : Buf
  world : World κ δ

/-! ## Interface dispatch -/

/-- The call `c.Err()`: observes the signal and records the call. -/
def Context.invokeErr {κ δ ε : Type} (c : Context κ ε) (w : World κ δ) :
    Option ε × World κ δ :=
  (c.Err w.env.sig, ⟨w.env, w.trace ++ [Event.ctxErr]⟩)

/-- The call `d.Read(p)`: runs the delegate on the environment and records the
call together with the slice it was given. -/
def Reader.invokeRead {κ δ ε : Type} (d : Reader κ δ ε) (p : Buf) (w : World κ δ) :
    ReadOut κ δ ε × World κ δ :=
  let o := d.Read p w.env
  (o, ⟨o.env, w.trace ++ [Event.delegateRead p]⟩)

/-! ## The package -/

/-- The function `NewCancellableReader(ctx, rdr)`: allocates the struct with the
two fields set; the world is passed through untouched. -/
def NewCancellableReader {κ δ ε : Type} (ctx : Context κ ε) (rdr : Reader κ δ ε)
    (w : World κ δ) : readerCtx κ δ ε × World κ δ :=
  (⟨ctx, rdr⟩, w)

/-- The method `(r *readerCtx) Read(p []byte) (n int, err error)`:
```
if err := r.ctx.Err(); err != nil { return 0, err }
return r.delegate.Read(p)
```
-/
def readerCtx.Read {κ δ ε : Type} (r : readerCtx κ δ ε) (p : Buf) (w : World κ δ) :
    WrapOut κ δ ε :=
  match r.ctx.invokeErr w with
  | (some err, w1) => ⟨r, 0, some err, p, w1⟩
  | (none, w1) =>
    match r.delegate.invokeRead p w1 with
    | (o, w2) => ⟨r, o.n, o.err, o.buf, w2⟩

/-! ## Sequences of calls -/

/-- One step of a client session: a read request with the slice it passes, or
an action of the owner of the signal (such as calling its cancel function). -/
inductive Action (κ : Type) where
  | read (p : Buf)
  | signal (f : κ → κ)

/-- What the caller of a Read sees: the bytes in its slice, the count, the error. -/
structure ReadRes (ε : Type) where
  bytes : Buf
  n : Int
  err : Option ε
  deriving DecidableEq, Repr

/-- The owner of the signal acts on it; the delegate is not involved. -/
def Env.signal {κ δ : Type} (f : κ → κ) (s : Env κ δ) : Env κ δ :=
  ⟨f s.sig, s.dlg⟩

/-- The owner of the signal acts on it; nothing is recorded in the trace. -/
def World.signal {κ δ : Type} (f : κ → κ) (w : World κ δ) : World κ δ :=
  ⟨w.env.signal f, w.trace⟩

/-- Runs a session directly on a reader: every read request is a call of the
reader's own Read. -/
def runDirect {κ δ ε : Type} (d : Reader κ δ ε) :
    List (Action κ) → Env κ δ → List (ReadRes ε) × Env κ δ
  | [], s => ([], s)
  | Action.read p :: rest, s =>
    let o := d.Read p s
    let t := runDirect d rest o.env
    (⟨o.buf, o.n, o.err⟩ :: t.1, t.2)
  | Action.signal f :: rest, s => runDirect d rest (s.signal f)

/-- Final situation of a session run through a wrapper. -/
structure RunOut (κ δ ε : Type) where
  results : List (ReadRes ε)
  world : World κ δ
  self : readerCtx κ δ ε

/-- Runs a session through a wrapper: every read request is a call of the
wrapper's Read, issued on the receiver the previous call left. -/
def runWrapped {κ δ ε : Type} (r : readerCtx κ δ ε) :
    List (Action κ) → World κ δ → RunOut κ δ ε
  | [], w => ⟨[], w, r⟩
  | Action.read p :: rest, w =>
    let o := r.Read p w
    let t := runWrapped o.self rest o.world
    ⟨⟨o.buf, o.n, o.err⟩ :: t.results, t.world, t.self⟩
  | Action.signal f :: rest, w => runWrapped r rest (w.signal f)

/-- The signal reports active at the start of every read request of a session
run directly on the reader. -/
def activeAtReads {κ δ ε : Type} (c : Context κ ε) (d : Reader κ δ ε) :
    List (Action κ) → Env κ δ → Bool
  | [], _ => true
  | Action.read p :: rest, s =>
    (c.Err s.sig).isNone && activeAtReads c d rest (d.Read p s).env
  | Action.signal f :: rest, s => activeAtReads c d rest (s.signal f)

/-- A signal action never takes back a cancellation: a signal that exposes the
error e keeps exposing e afterwards. -/
def KeepsCancelled {κ ε : Type} (c : Context κ ε) (f : κ → κ) : Prop :=
  ∀ k e, c.Err k = some e → c.Err (f k) = some e

/-- Every signal action of the session keeps a cancellation once it is there. -/
def NoRevival {κ ε : Type} (c : Context κ ε) : List (Action κ) → Prop
  | [] => True
  | Action.read _ :: rest => NoRevival c rest
  | Action.signal f :: rest => KeepsCancelled c f ∧ NoRevival c rest

/-! ## Sample signals and readers

Small concrete instances of the two interfaces, on which the general theorems
are instantiated. -/

/-- Some error values. -/
inductive GoErr where
  | Canceled
  | DeadlineExceeded
  | EOF
  | ErrFault
  deriving DecidableEq, Repr

/-- A cancellable signal: its state is the error it exposes, nil while active. -/
def cancelCtx : Context (Option GoErr) GoErr := ⟨fun k => k⟩

/-- The cancel function of the sample signal: the first cancellation wins. -/
def cancel : Option GoErr → Option GoErr
  | none => some GoErr.Canceled
  | some e => some e

/-- The copy of `src` into the slice `p`, as Go's builtin copy leaves `p`. -/
def copyInto (p src : Buf) : Buf :=
  src.take (min p.length src.length) ++ p.drop (min p.length src.length)

/-- A reader over an in-memory byte string, its state being the bytes not yet
read: end-of-stream once nothing is left, otherwise as many bytes as fit. -/
def sliceReader : Reader (Option GoErr) Buf GoErr :=
  ⟨fun p s =>
    match s.dlg with
    | [] => ⟨0, some GoErr.EOF, p, s⟩
    | b :: bs => ⟨(min p.length (b :: bs).length : Nat), none, copyInto p (b :: bs),
        ⟨s.sig, (b :: bs).drop (min p.length (b :: bs).length)⟩⟩⟩

/-- A reader whose every Read fails with a fault and reads nothing. -/
def faultyReader : Reader (Option GoErr) Buf GoErr :=
  ⟨fun p s => ⟨0, some GoErr.ErrFault, p, s⟩⟩

/-- A reader during whose Read the signal gets cancelled: it behaves as
`sliceReader` and leaves the signal cancelled. -/
def cancellingReader : Reader (Option GoErr) Buf GoErr :=
  ⟨fun p s =>
    let o := sliceReader.Read p s
    ⟨o.n, o.err, o.buf, o.env.signal cancel⟩⟩

/-- A reader bound to the same signal as its caller: its Read is cut short by a
cancellation of the signal and reports what the signal then exposes, having
read nothing. -/
def abortingReader : Reader (Option GoErr) Buf GoErr :=
  ⟨fun p s => ⟨0, cancelCtx.Err (s.signal cancel).sig, p, s.signal cancel⟩⟩

/-- The bytes of "hello". -/
def hello : Buf := [104, 101, 108, 108, 111]

/-- A slice of eight zero bytes. -/
def buf8 : Buf := List.replicate 8 0

/-- A world with the sample signal active, "hello" unread, and an empty trace. -/
def helloWorld : World (Option GoErr) Buf := ⟨⟨none, hello⟩, []⟩

/-- A world with the sample signal already cancelled, "hello" unread, and an
empty trace. -/
def cancelledWorld : World (Option GoErr) Buf := ⟨⟨some GoErr.Canceled, hello⟩, []⟩

/-- The session requests of a schedule, in order: the slices its reads pass. -/
def readsOf {κ : Type} : List (Action κ) → List Buf
  | [] => []
  | Action.read p :: rest => p :: readsOf rest
  | Action.signal _ :: rest => readsOf rest

/-! ## Basic facts -/

theorem delegateCalls_append (s t : List Event) :
    delegateCalls (s ++ t) = delegateCalls s + delegateCalls t := by
  induction s with
  | nil => simp [delegateCalls]
  | cons ev s ih =>
    cases ev with
    | ctxErr => simpa [delegateCalls] using ih
    | delegateRead p => simp [delegateCalls, ih]; omega

theorem ctxQueries_append (s t : List Event) :
    ctxQueries (s ++ t) = ctxQueries s + ctxQueries t := by
  induction s with
  | nil => simp [ctxQueries]
  | cons ev s ih =>
    cases ev with
    | ctxErr => simp [ctxQueries, ih]; omega
    | delegateRead p => simpa [ctxQueries] using ih

/-- The branch taken when the signal reports an error. -/
theorem Read_of_cancelled {κ δ ε : Type} (r : readerCtx κ δ ε) (p : Buf) (w : World κ δ)
    (e : ε) (h : r.ctx.Err w.env.sig = some e) :
    r.Read p w = ⟨r, 0, some e, p, ⟨w.env, w.trace ++ [Event.ctxErr]⟩⟩ := by
  simp only [readerCtx.Read, Context.invokeErr, h]

/-- The branch taken when the signal reports nil. -/
theorem Read_of_active {κ δ ε : Type} (r : readerCtx κ δ ε) (p : Buf) (w : World κ δ)
    (h : r.ctx.Err w.env.sig = none) :
    r.Read p w = ⟨r, (r.delegate.Read p w.env).n, (r.delegate.Read p w.env).err,
      (r.delegate.Read p w.env).buf,
      ⟨(r.delegate.Read p w.env).env, w.trace ++ [Event.ctxErr, Event.delegateRead p]⟩⟩ := by
  simp only [readerCtx.Read, Context.invokeErr, Reader.invokeRead, h, List.append_assoc,
    List.singleton_append]

/-- The receiver is the same struct after a Read. -/
theorem Read_self {κ δ ε : Type} (r : readerCtx κ δ ε) (p : Buf) (w : World κ δ) :
    (r.Read p w).self = r := by
  cases h : r.ctx.Err w.env.sig with
  | none => rw [Read_of_active r p w h]
  | some e => rw [Read_of_cancelled r p w e h]

/-! ## Facts about sessions -/

theorem runWrapped_read {κ δ ε : Type} (r : readerCtx κ δ ε) (p : Buf)
    (rest : List (Action κ)) (w : World κ δ) :
    runWrapped r (Action.read p :: rest) w
      = ⟨⟨(r.Read p w).buf, (r.Read p w).n, (r.Read p w).err⟩
            :: (runWrapped (r.Read p w).self rest (r.Read p w).world).results,
          (runWrapped (r.Read p w).self rest (r.Read p w).world).world,
          (runWrapped (r.Read p w).self rest (r.Read p w).world).self⟩ := rfl

theorem runWrapped_signal {κ δ ε : Type} (r : readerCtx κ δ ε) (f : κ → κ)
    (rest : List (Action κ)) (w : World κ δ) :
    runWrapped r (Action.signal f :: rest) w = runWrapped r rest (w.signal f) := rfl

/-- The receiver is the same struct after a whole session. -/
theorem runWrapped_self {κ δ ε : Type} (r : readerCtx κ δ ε) (acts : List (Action κ))
    (w : World κ δ) : (runWrapped r acts w).self = r := by
  induction acts generalizing w with
  | nil => rfl
  | cons a rest ih =>
    cases a with
    | read p =>
      rw [runWrapped_read]
      show (runWrapped (r.Read p w).self rest (r.Read p w).world).self = r
      rw [Read_self]
      exact ih _
    | signal f =>
      rw [runWrapped_signal]
      exact ih _

/-- A session run in two parts. -/
theorem runWrapped_append {κ δ ε : Type} (r : readerCtx κ δ ε) (a b : List (Action κ))
    (w : World κ δ) :
    runWrapped r (a ++ b) w
      = ⟨(runWrapped r a w).results ++ (runWrapped r b (runWrapped r a w).world).results,
          (runWrapped r b (runWrapped r a w).world).world, r⟩ := by
  induction a generalizing w with
  | nil =>
    show runWrapped r b w = _
    have hs := runWrapped_self r b w
    cases hb : runWrapped r b w with
    | mk res wd sf =>
      rw [hb] at hs
      simp only [runWrapped, List.nil_append]
      rw [hb]
      simp only at hs
      rw [hs]
  | cons x rest ih =>
    cases x with
    | read p =>
      rw [List.cons_append, runWrapped_read, runWrapped_read, Read_self, ih]
      simp
    | signal f =>
      rw [List.cons_append, runWrapped_signal, runWrapped_signal, ih]

/-- While the signal is active at every read, a session through the wrapper is
the session on the delegate, with one delegate call for each read. -/
theorem runWrapped_of_active {κ δ ε : Type} (r : readerCtx κ δ ε) (acts : List (Action κ))
    (w : World κ δ) (h : activeAtReads r.ctx r.delegate acts w.env = true) :
    (runWrapped r acts w).results = (runDirect r.delegate acts w.env).1 ∧
    (runWrapped r acts w).world.env = (runDirect r.delegate acts w.env).2 ∧
    delegateCalls (runWrapped r acts w).world.trace
      = delegateCalls w.trace + (readsOf acts).length := by
  induction acts generalizing w with
  | nil => exact ⟨rfl, rfl, rfl⟩
  | cons a rest ih =>
    cases a with
    | read p =>
      simp only [activeAtReads, Bool.and_eq_true, Option.isNone_iff_eq_none] at h
      obtain ⟨hnow, hrest⟩ := h
      rw [runWrapped_read, Read_of_active r p w hnow]
      obtain ⟨h1, h2, h3⟩ := ih ⟨(r.delegate.Read p w.env).env,
        w.trace ++ [Event.ctxErr, Event.delegateRead p]⟩ hrest
      refine ⟨?_, ?_, ?_⟩
      · simp only [runDirect]
        rw [← h1]
      · simp only [runDirect]
        rw [← h2]
      · simp only [readsOf, List.length_cons]
        rw [h3]
        simp [delegateCalls_append, delegateCalls]
        omega
    | signal f =>
      rw [runWrapped_signal]
      exact ih (w.signal f) h

/-- Once the signal is cancelled and no signal action takes the cancellation
back, a session through the wrapper answers every read with the cancellation
error and never reaches the delegate. -/
theorem runWrapped_of_cancelled {κ δ ε : Type} (r : readerCtx κ δ ε)
    (acts : List (Action κ)) (w : World κ δ) (e : ε)
    (hc : r.ctx.Err w.env.sig = some e) (hm : NoRevival r.ctx acts) :
    (runWrapped r acts w).results = (readsOf acts).map (fun p => ⟨p, 0, some e⟩) ∧
    delegateCalls (runWrapped r acts w).world.trace = delegateCalls w.trace ∧
    (runWrapped r acts w).world.env.dlg = w.env.dlg ∧
    r.ctx.Err (runWrapped r acts w).world.env.sig = some e := by
  induction acts generalizing w with
  | nil => exact ⟨rfl, rfl, rfl, hc⟩
  | cons a rest ih =>
    cases a with
    | read p =>
      rw [runWrapped_read, Read_of_cancelled r p w e hc]
      obtain ⟨h1, h2, h3, h4⟩ := ih ⟨w.env, w.trace ++ [Event.ctxErr]⟩ hc hm
      refine ⟨?_, ?_, h3, h4⟩
      · simp only [readsOf, List.map_cons]
        rw [← h1]
      · show delegateCalls (runWrapped r rest ⟨w.env, w.trace ++ [Event.ctxErr]⟩).world.trace = _
        rw [h2]
        simp [delegateCalls_append, delegateCalls]
    | signal f =>
      rw [runWrapped_signal]
      exact ih (w.signal f) (hm.1 _ _ hc) hm.2

/-- The cancel function of the sample signal keeps a cancellation. -/
theorem cancel_keepsCancelled : KeepsCancelled cancelCtx cancel := by
  intro k e h
  cases k with
  | none => cases h
  | some x => exact h

/-! ## A single Read -/

/-- C1: for a wrapper built by NewCancellableReader(ctx, rdr), any slice p (the
empty one included) and any state of the delegate, if ctx.Err() is non-nil when
Read(p) starts, then Read returns exactly (0, ctx.Err()); the delegate's Read is
not invoked: the trace gains the one query of the signal and no delegate call,
the delegate call count is the same, and the environment (the delegate's state
in particular) is the same after the call as before.  Nothing is assumed about
what the delegate would have returned. -/
theorem read_cancelled_returns_ctx_err {κ δ ε : Type} (ctx : Context κ ε)
    (rdr : Reader κ δ ε) (w0 w : World κ δ) (p : Buf) (e : ε)
    (h : ctx.Err w.env.sig = some e) :
    ((NewCancellableReader ctx rdr w0).1.Read p w).n = 0 ∧
    ((NewCancellableReader ctx rdr w0).1.Read p w).err = some e ∧
    ((NewCancellableReader ctx rdr w0).1.Read p w).world.env = w.env ∧
    ((NewCancellableReader ctx rdr w0).1.Read p w).world.trace = w.trace ++ [Event.ctxErr] ∧
    delegateCalls ((NewCancellableReader ctx rdr w0).1.Read p w).world.trace
      = delegateCalls w.trace := by
  have hr : (NewCancellableReader ctx rdr w0).1.ctx.Err w.env.sig = some e := h
  rw [Read_of_cancelled _ p w e hr]
  refine ⟨rfl, rfl, rfl, rfl, ?_⟩
  simp [delegateCalls_append, delegateCalls]

/-- C1, instantiated: the signal is already cancelled, the slice is empty, and
the delegate still has "hello" to give. -/
theorem read_cancelled_returns_ctx_err_witness :
    cancelCtx.Err cancelledWorld.env.sig = some GoErr.Canceled ∧
    (((NewCancellableReader cancelCtx sliceReader helloWorld).1.Read [] cancelledWorld).n = 0 ∧
    ((NewCancellableReader cancelCtx sliceReader helloWorld).1.Read [] cancelledWorld).err
      = some GoErr.Canceled ∧
    ((NewCancellableReader cancelCtx sliceReader helloWorld).1.Read [] cancelledWorld).world.env
      = cancelledWorld.env ∧
    ((NewCancellableReader cancelCtx sliceReader helloWorld).1.Read [] cancelledWorld).world.trace
      = cancelledWorld.trace ++ [Event.ctxErr] ∧
    delegateCalls
        ((NewCancellableReader cancelCtx sliceReader helloWorld).1.Read [] cancelledWorld).world.trace
      = delegateCalls cancelledWorld.trace) :=
  ⟨rfl, read_cancelled_returns_ctx_err cancelCtx sliceReader helloWorld cancelledWorld []
    GoErr.Canceled rfl⟩

/-- C2: if ctx.Err() is nil when Read(p) starts, Read invokes the delegate's
Read exactly once, with the same slice p, and returns exactly the pair (n, err)
the delegate returned, with the same bytes in p and the same resulting state as
the direct call delegate.Read(p) produces. -/
theorem read_active_is_delegate_read {κ δ ε : Type} (ctx : Context κ ε)
    (rdr : Reader κ δ ε) (w0 w : World κ δ) (p : Buf)
    (h : ctx.Err w.env.sig = none) :
    ((NewCancellableReader ctx rdr w0).1.Read p w).n = (rdr.Read p w.env).n ∧
    ((NewCancellableReader ctx rdr w0).1.Read p w).err = (rdr.Read p w.env).err ∧
    ((NewCancellableReader ctx rdr w0).1.Read p w).buf = (rdr.Read p w.env).buf ∧
    ((NewCancellableReader ctx rdr w0).1.Read p w).world.env = (rdr.Read p w.env).env ∧
    ((NewCancellableReader ctx rdr w0).1.Read p w).world.trace
      = w.trace ++ [Event.ctxErr, Event.delegateRead p] ∧
    delegateCalls ((NewCancellableReader ctx rdr w0).1.Read p w).world.trace
      = delegateCalls w.trace + 1 := by
  have hr : (NewCancellableReader ctx rdr w0).1.ctx.Err w.env.sig = none := h
  rw [Read_of_active _ p w hr]
  refine ⟨rfl, rfl, rfl, rfl, rfl, ?_⟩
  simp [delegateCalls_append, delegateCalls]

/-- C2, instantiated: the signal is active and the delegate holds "hello". -/
theorem read_active_is_delegate_read_witness :
    cancelCtx.Err helloWorld.env.sig = none ∧
    (((NewCancellableReader cancelCtx sliceReader helloWorld).1.Read buf8 helloWorld).n
      = (sliceReader.Read buf8 helloWorld.env).n ∧
    ((NewCancellableReader cancelCtx sliceReader helloWorld).1.Read buf8 helloWorld).err
      = (sliceReader.Read buf8 helloWorld.env).err ∧
    ((NewCancellableReader cancelCtx sliceReader helloWorld).1.Read buf8 helloWorld).buf
      = (sliceReader.Read buf8 helloWorld.env).buf ∧
    ((NewCancellableReader cancelCtx sliceReader helloWorld).1.Read buf8 helloWorld).world.env
      = (sliceReader.Read buf8 helloWorld.env).env ∧
    ((NewCancellableReader cancelCtx sliceReader helloWorld).1.Read buf8 helloWorld).world.trace
      = helloWorld.trace ++ [Event.ctxErr, Event.delegateRead buf8] ∧
    delegateCalls
        ((NewCancellableReader cancelCtx sliceReader helloWorld).1.Read buf8 helloWorld).world.trace
      = delegateCalls helloWorld.trace + 1) :=
  ⟨rfl, read_active_is_delegate_read cancelCtx sliceReader helloWorld helloWorld buf8 rfl⟩

/-- C3, as stated, fails.  The signal is active when Read starts; the delegate is
bound to the same signal, which gets cancelled while the delegate reads, and the
delegate reports the signal's error.  Read passes that error on: the error it
returns is the very value the signal exposes, although ctx.Err() was nil at the
start of the call. -/
theorem read_returns_ctx_err_though_active_at_start :
    cancelCtx.Err helloWorld.env.sig = none ∧
    ((NewCancellableReader cancelCtx abortingReader helloWorld).1.Read buf8 helloWorld).err
      = some GoErr.Canceled ∧
    cancelCtx.Err
        ((NewCancellableReader cancelCtx abortingReader helloWorld).1.Read buf8
          helloWorld).world.env.sig
      = some GoErr.Canceled ∧
    ¬ ((∃ e, cancelCtx.Err
            ((NewCancellableReader cancelCtx abortingReader helloWorld).1.Read buf8
              helloWorld).world.env.sig = some e ∧
          ((NewCancellableReader cancelCtx abortingReader helloWorld).1.Read buf8
            helloWorld).err = some e)
        ↔ cancelCtx.Err helloWorld.env.sig ≠ none) := by
  refine ⟨rfl, by decide, by decide, ?_⟩
  intro hiff
  exact hiff.1 ⟨GoErr.Canceled, by decide, by decide⟩ rfl

/-- C3, amended: for every wrapper, slice, delegate and error value e, Read returns
the error e if and only if either ctx.Err() exposes e when the call starts, or
ctx.Err() is nil when the call starts and e is the error the delegate's Read
returned.  Hence, for a delegate whose Read does not itself return e on that
call, Read returns e exactly when ctx.Err() exposes e at the start of the call. -/
theorem read_err_iff_ctx_err_or_delegate_err {κ δ ε : Type} (ctx : Context κ ε)
    (rdr : Reader κ δ ε) (w0 w : World κ δ) (p : Buf) (e : ε) :
    (((NewCancellableReader ctx rdr w0).1.Read p w).err = some e
      ↔ (ctx.Err w.env.sig = some e ∨
          (ctx.Err w.env.sig = none ∧ (rdr.Read p w.env).err = some e))) ∧
    ((rdr.Read p w.env).err ≠ some e →
      (((NewCancellableReader ctx rdr w0).1.Read p w).err = some e
        ↔ ctx.Err w.env.sig = some e)) := by
  cases h : ctx.Err w.env.sig with
  | none =>
    have hr : (NewCancellableReader ctx rdr w0).1.ctx.Err w.env.sig = none := h
    rw [Read_of_active _ p w hr]
    refine ⟨⟨fun he => Or.inr ⟨rfl, he⟩, fun hor => ?_⟩, fun hd => ⟨fun he => absurd he hd, fun hc => ?_⟩⟩
    · rcases hor with hc | ⟨_, he⟩
      · exact Option.noConfusion hc
      · exact he
    · exact Option.noConfusion hc
  | some x =>
    have hr : (NewCancellableReader ctx rdr w0).1.ctx.Err w.env.sig = some x := h
    rw [Read_of_cancelled _ p w x hr]
    refine ⟨⟨fun he => Or.inl he, fun hor => ?_⟩, fun _ => Iff.rfl⟩
    rcases hor with hc | ⟨hn, _⟩
    · exact hc
    · exact Option.noConfusion hn

/-- C3 amended, instantiated: the delegate holding "hello" returns no error on
its first Read, so with the signal cancelled Read returns Canceled, and with the
signal active it does not. -/
theorem read_err_iff_ctx_err_or_delegate_err_witness :
    (sliceReader.Read buf8 cancelledWorld.env).err ≠ some GoErr.Canceled ∧
    (sliceReader.Read buf8 helloWorld.env).err ≠ some GoErr.Canceled ∧
    (((NewCancellableReader cancelCtx sliceReader helloWorld).1.Read buf8 cancelledWorld).err
        = some GoErr.Canceled
      ↔ cancelCtx.Err cancelledWorld.env.sig = some GoErr.Canceled) ∧
    (((NewCancellableReader cancelCtx sliceReader helloWorld).1.Read buf8 helloWorld).err
        = some GoErr.Canceled
      ↔ cancelCtx.Err helloWorld.env.sig = some GoErr.Canceled) :=
  ⟨by decide, by decide,
    (read_err_iff_ctx_err_or_delegate_err cancelCtx sliceReader helloWorld cancelledWorld buf8
      GoErr.Canceled).2 (by decide),
    (read_err_iff_ctx_err_or_delegate_err cancelCtx sliceReader helloWorld helloWorld buf8
      GoErr.Canceled).2 (by decide)⟩

/-- C4: while the signal is active, whatever count n and error e (end-of-stream
included) the delegate's Read returns, the wrapper's Read returns that same n
and that same e. -/
theorem read_active_passes_error_through {κ δ ε : Type} (ctx : Context κ ε)
    (rdr : Reader κ δ ε) (w0 w : World κ δ) (p : Buf) (n : Int) (e : ε)
    (hactive : ctx.Err w.env.sig = none)
    (hn : (rdr.Read p w.env).n = n) (he : (rdr.Read p w.env).err = some e) :
    ((NewCancellableReader ctx rdr w0).1.Read p w).n = n ∧
    ((NewCancellableReader ctx rdr w0).1.Read p w).err = some e := by
  have hr : (NewCancellableReader ctx rdr w0).1.ctx.Err w.env.sig = none := hactive
  rw [Read_of_active _ p w hr]
  exact ⟨hn, he⟩

/-- C4, instantiated twice: a delegate that fails with a fault, and a delegate
at end-of-stream. -/
theorem read_active_passes_error_through_witness :
    (cancelCtx.Err helloWorld.env.sig = none ∧
      (faultyReader.Read buf8 helloWorld.env).n = 0 ∧
      (faultyReader.Read buf8 helloWorld.env).err = some GoErr.ErrFault ∧
      ((NewCancellableReader cancelCtx faultyReader helloWorld).1.Read buf8 helloWorld).n = 0 ∧
      ((NewCancellableReader cancelCtx faultyReader helloWorld).1.Read buf8 helloWorld).err
        = some GoErr.ErrFault) ∧
    ((sliceReader.Read buf8 ⟨none, []⟩).err = some GoErr.EOF ∧
      ((NewCancellableReader cancelCtx sliceReader helloWorld).1.Read buf8 ⟨⟨none, []⟩, []⟩).n = 0 ∧
      ((NewCancellableReader cancelCtx sliceReader helloWorld).1.Read buf8 ⟨⟨none, []⟩, []⟩).err
        = some GoErr.EOF) :=
  ⟨⟨rfl, rfl, rfl,
      read_active_passes_error_through cancelCtx faultyReader helloWorld helloWorld buf8 0
        GoErr.ErrFault rfl rfl rfl⟩,
    rfl,
    read_active_passes_error_through cancelCtx sliceReader helloWorld ⟨⟨none, []⟩, []⟩ buf8 0
      GoErr.EOF rfl rfl rfl⟩

/-- C8: NewCancellableReader(ctx, rdr) is total and returns, for any ctx and rdr
and in any world (a world whose signal is already cancelled included), a wrapper
holding exactly the given signal and the given delegate; the environment is the
same after construction as before (the delegate's state and the signal's state
in particular), and the trace is the same, so neither the delegate's Read nor
the signal's Err has been called. -/
theorem NewCancellableReader_stores_and_does_nothing {κ δ ε : Type} (ctx : Context κ ε)
    (rdr : Reader κ δ ε) (w : World κ δ) :
    (NewCancellableReader ctx rdr w).1.ctx = ctx ∧
    (NewCancellableReader ctx rdr w).1.delegate = rdr ∧
    (NewCancellableReader ctx rdr w).2.env = w.env ∧
    (NewCancellableReader ctx rdr w).2.trace = w.trace ∧
    delegateCalls (NewCancellableReader ctx rdr w).2.trace = delegateCalls w.trace ∧
    ctxQueries (NewCancellableReader ctx rdr w).2.trace = ctxQueries w.trace :=
  ⟨rfl, rfl, rfl, rfl, rfl, rfl⟩

/-- C9: cancellation is observed at the call boundary only.  If the one query of
the signal at the start of Read(p) reports active, the trace gains exactly that
query followed by the delegate call and nothing after it (no second query), and
the call returns the delegate's count, error and bytes, whatever the state of
the signal is when the delegate's Read returns: a delegate during whose Read
the signal gets cancelled is among the delegates quantified over. -/
theorem read_checks_signal_once_before_delegating {κ δ ε : Type} (ctx : Context κ ε)
    (rdr : Reader κ δ ε) (w0 w : World κ δ) (p : Buf)
    (h : ctx.Err w.env.sig = none) :
    ((NewCancellableReader ctx rdr w0).1.Read p w).world.trace
      = w.trace ++ [Event.ctxErr, Event.delegateRead p] ∧
    ctxQueries ((NewCancellableReader ctx rdr w0).1.Read p w).world.trace
      = ctxQueries w.trace + 1 ∧
    ((NewCancellableReader ctx rdr w0).1.Read p w).n = (rdr.Read p w.env).n ∧
    ((NewCancellableReader ctx rdr w0).1.Read p w).err = (rdr.Read p w.env).err ∧
    ((NewCancellableReader ctx rdr w0).1.Read p w).buf = (rdr.Read p w.env).buf ∧
    ((NewCancellableReader ctx rdr w0).1.Read p w).world.env.sig
      = (rdr.Read p w.env).env.sig := by
  have hr : (NewCancellableReader ctx rdr w0).1.ctx.Err w.env.sig = none := h
  rw [Read_of_active _ p w hr]
  refine ⟨rfl, ?_, rfl, rfl, rfl, rfl⟩
  simp [ctxQueries_append, ctxQueries]

/-- C9, instantiated on a delegate that cancels the signal while it reads: the
signal is active before the call and cancelled after it, and the call still
returns the five bytes and the nil error of the delegate. -/
theorem read_checks_signal_once_before_delegating_witness :
    cancelCtx.Err helloWorld.env.sig = none ∧
    cancelCtx.Err
        ((NewCancellableReader cancelCtx cancellingReader helloWorld).1.Read buf8
          helloWorld).world.env.sig = some GoErr.Canceled ∧
    (cancellingReader.Read buf8 helloWorld.env).n = 5 ∧
    (cancellingReader.Read buf8 helloWorld.env).err = none ∧
    (((NewCancellableReader cancelCtx cancellingReader helloWorld).1.Read buf8
        helloWorld).world.trace
      = helloWorld.trace ++ [Event.ctxErr, Event.delegateRead buf8] ∧
    ctxQueries
        ((NewCancellableReader cancelCtx cancellingReader helloWorld).1.Read buf8
          helloWorld).world.trace
      = ctxQueries helloWorld.trace + 1 ∧
    ((NewCancellableReader cancelCtx cancellingReader helloWorld).1.Read buf8 helloWorld).n
      = (cancellingReader.Read buf8 helloWorld.env).n ∧
    ((NewCancellableReader cancelCtx cancellingReader helloWorld).1.Read buf8 helloWorld).err
      = (cancellingReader.Read buf8 helloWorld.env).err ∧
    ((NewCancellableReader cancelCtx cancellingReader helloWorld).1.Read buf8 helloWorld).buf
      = (cancellingReader.Read buf8 helloWorld.env).buf ∧
    ((NewCancellableReader cancelCtx cancellingReader helloWorld).1.Read buf8
        helloWorld).world.env.sig
      = (cancellingReader.Read buf8 helloWorld.env).env.sig) :=
  ⟨rfl, by decide, by decide, by decide,
    read_checks_signal_once_before_delegating cancelCtx cancellingReader helloWorld helloWorld
      buf8 rfl⟩

/-- C10: Read has no side effect of its own.  After every call the receiver
holds the same signal and the same delegate.  The environment after the call is
the one before it when the signal was cancelled at the start, and otherwise the
one the delegate's Read left; likewise the slice p holds the bytes it held
before when the signal was cancelled at the start, and otherwise the bytes the
delegate's Read left. -/
theorem read_has_no_effect_of_its_own {κ δ ε : Type} (r : readerCtx κ δ ε)
    (w : World κ δ) (p : Buf) :
    (r.Read p w).self.ctx = r.ctx ∧
    (r.Read p w).self.delegate = r.delegate ∧
    (r.Read p w).buf
      = (match r.ctx.Err w.env.sig with
        | some _ => p
        | none => (r.delegate.Read p w.env).buf) ∧
    (r.Read p w).world.env
      = (match r.ctx.Err w.env.sig with
        | some _ => w.env
        | none => (r.delegate.Read p w.env).env) := by
  cases h : r.ctx.Err w.env.sig with
  | none =>
    rw [Read_of_active r p w h]
    exact ⟨rfl, rfl, rfl, rfl⟩
  | some e =>
    rw [Read_of_cancelled r p w e h]
    exact ⟨rfl, rfl, rfl, rfl⟩

/-! ## Sessions -/

/-- C5: for every delegate, every initial state and every finite session (read
requests with their slices, possibly interleaved with actions on the signal), if
the signal reports active at the start of every read then the session run through
the wrapper yields the same list of (bytes, count, error) results and the same
final state as the session run directly on the delegate.  In particular the
delegate that yields "hello" and then end-of-stream yields, through the wrapper,
"hello" (five bytes, nil error) and then end-of-stream. -/
theorem wrapped_session_equals_direct_session {κ δ ε : Type} (ctx : Context κ ε)
    (rdr : Reader κ δ ε) (w0 w : World κ δ) (acts : List (Action κ))
    (h : activeAtReads ctx rdr acts w.env = true) :
    (runWrapped (NewCancellableReader ctx rdr w0).1 acts w).results
      = (runDirect rdr acts w.env).1 ∧
    (runWrapped (NewCancellableReader ctx rdr w0).1 acts w).world.env
      = (runDirect rdr acts w.env).2 ∧
    (runWrapped (NewCancellableReader cancelCtx sliceReader helloWorld).1
        [Action.read buf8, Action.read buf8] helloWorld).results
      = [⟨hello ++ [0, 0, 0], 5, none⟩, ⟨buf8, 0, some GoErr.EOF⟩] := by
  have hr : activeAtReads (NewCancellableReader ctx rdr w0).1.ctx
      (NewCancellableReader ctx rdr w0).1.delegate acts w.env = true := h
  obtain ⟨h1, h2, _⟩ := runWrapped_of_active _ acts w hr
  exact ⟨h1, h2, by decide⟩

/-- C5, instantiated on the delegate holding "hello", read twice. -/
theorem wrapped_session_equals_direct_session_witness :
    activeAtReads cancelCtx sliceReader [Action.read buf8, Action.read buf8] helloWorld.env
      = true ∧
    (runDirect sliceReader [Action.read buf8, Action.read buf8] helloWorld.env).1
      = [⟨hello ++ [0, 0, 0], 5, none⟩, ⟨buf8, 0, some GoErr.EOF⟩] ∧
    ((runWrapped (NewCancellableReader cancelCtx sliceReader helloWorld).1
        [Action.read buf8, Action.read buf8] helloWorld).results
      = (runDirect sliceReader [Action.read buf8, Action.read buf8] helloWorld.env).1 ∧
    (runWrapped (NewCancellableReader cancelCtx sliceReader helloWorld).1
        [Action.read buf8, Action.read buf8] helloWorld).world.env
      = (runDirect sliceReader [Action.read buf8, Action.read buf8] helloWorld.env).2 ∧
    (runWrapped (NewCancellableReader cancelCtx sliceReader helloWorld).1
        [Action.read buf8, Action.read buf8] helloWorld).results
      = [⟨hello ++ [0, 0, 0], 5, none⟩, ⟨buf8, 0, some GoErr.EOF⟩]) :=
  ⟨by decide, by decide,
    wrapped_session_equals_direct_session cancelCtx sliceReader helloWorld helloWorld
      [Action.read buf8, Action.read buf8] (by decide)⟩

/-- C6: the cancellation check is made anew on every Read.  Take a wrapper and a
session, of any length, at each of whose reads the signal is active: every one of
these reads returns the delegate's result.  Let the owner of the signal then
cancel it.  The next Read on the same wrapper returns (0, cancellation error)
with its slice untouched, and the delegate has been called once for each earlier
read and not for this one. -/
theorem read_after_cancellation_sees_it {κ δ ε : Type} (ctx : Context κ ε)
    (rdr : Reader κ δ ε) (w0 : World κ δ) (acts : List (Action κ)) (f : κ → κ)
    (p : Buf) (e : ε)
    (hact : activeAtReads ctx rdr acts w0.env = true)
    (hc : ctx.Err
        (f (runWrapped (NewCancellableReader ctx rdr w0).1 acts
          (NewCancellableReader ctx rdr w0).2).world.env.sig) = some e) :
    (runWrapped (NewCancellableReader ctx rdr w0).1
        (acts ++ [Action.signal f, Action.read p]) (NewCancellableReader ctx rdr w0).2).results
      = (runDirect rdr acts w0.env).1 ++ [⟨p, 0, some e⟩] ∧
    delegateCalls (runWrapped (NewCancellableReader ctx rdr w0).1
        (acts ++ [Action.signal f, Action.read p])
        (NewCancellableReader ctx rdr w0).2).world.trace
      = delegateCalls w0.trace + (readsOf acts).length ∧
    (runWrapped (NewCancellableReader ctx rdr w0).1
        (acts ++ [Action.signal f, Action.read p]) (NewCancellableReader ctx rdr w0).2).world.env
      = (runDirect rdr acts w0.env).2.signal f := by
  have hr : activeAtReads (NewCancellableReader ctx rdr w0).1.ctx
      (NewCancellableReader ctx rdr w0).1.delegate acts
      (NewCancellableReader ctx rdr w0).2.env = true := hact
  obtain ⟨h1, h2, h3⟩ := runWrapped_of_active _ acts _ hr
  have hc2 : (NewCancellableReader ctx rdr w0).1.ctx.Err
      ((runWrapped (NewCancellableReader ctx rdr w0).1 acts
        (NewCancellableReader ctx rdr w0).2).world.signal f).env.sig = some e := hc
  rw [runWrapped_append, runWrapped_signal, runWrapped_read, Read_of_cancelled _ p _ e hc2]
  refine ⟨?_, ?_, ?_⟩
  · show (runWrapped _ acts _).results ++ [⟨p, 0, some e⟩] = _
    rw [h1]
    rfl
  · show delegateCalls ((runWrapped _ acts _).world.trace ++ [Event.ctxErr]) = _
    rw [delegateCalls_append, h3]
    rfl
  · show (runWrapped _ acts _).world.env.signal f = _
    rw [h2]
    rfl

/-- C6, instantiated: one successful read of "hello", then the cancel function,
then a read that is answered with the cancellation error. -/
theorem read_after_cancellation_sees_it_witness :
    activeAtReads cancelCtx sliceReader [Action.read buf8] helloWorld.env = true ∧
    cancelCtx.Err
        (cancel (runWrapped (NewCancellableReader cancelCtx sliceReader helloWorld).1
          [Action.read buf8] (NewCancellableReader cancelCtx sliceReader helloWorld).2).world.env.sig)
      = some GoErr.Canceled ∧
    (runDirect sliceReader [Action.read buf8] helloWorld.env).1
      = [⟨hello ++ [0, 0, 0], 5, none⟩] ∧
    ((runWrapped (NewCancellableReader cancelCtx sliceReader helloWorld).1
        ([Action.read buf8] ++ [Action.signal cancel, Action.read buf8])
        (NewCancellableReader cancelCtx sliceReader helloWorld).2).results
      = (runDirect sliceReader [Action.read buf8] helloWorld.env).1
          ++ [⟨buf8, 0, some GoErr.Canceled⟩] ∧
    delegateCalls (runWrapped (NewCancellableReader cancelCtx sliceReader helloWorld).1
        ([Action.read buf8] ++ [Action.signal cancel, Action.read buf8])
        (NewCancellableReader cancelCtx sliceReader helloWorld).2).world.trace
      = delegateCalls helloWorld.trace + (readsOf ([Action.read buf8] : List (Action (Option GoErr)))).length ∧
    (runWrapped (NewCancellableReader cancelCtx sliceReader helloWorld).1
        ([Action.read buf8] ++ [Action.signal cancel, Action.read buf8])
        (NewCancellableReader cancelCtx sliceReader helloWorld).2).world.env
      = (runDirect sliceReader [Action.read buf8] helloWorld.env).2.signal cancel) :=
  ⟨by decide, by decide, by decide,
    read_after_cancellation_sees_it cancelCtx sliceReader helloWorld [Action.read buf8] cancel
      buf8 GoErr.Canceled (by decide) (by decide)⟩

/-- C7: assume that no action on the signal takes a cancellation back.  In any
session on one wrapper, from a point where the signal is cancelled (so that a
Read issued there returns the cancellation error) every later Read returns
(0, that cancellation error) with its slice untouched, the number of delegate
calls stays what it was at that point, the delegate's state stays what it was,
and the wrapper is the same struct after these calls as before them. -/
theorem cancelled_is_terminal {κ δ ε : Type} (r : readerCtx κ δ ε) (w : World κ δ)
    (before after : List (Action κ)) (e : ε)
    (hc : r.ctx.Err (runWrapped r before w).world.env.sig = some e)
    (hm : NoRevival r.ctx after) :
    (runWrapped r (before ++ after) w).results
      = (runWrapped r before w).results ++ (readsOf after).map (fun p => ⟨p, 0, some e⟩) ∧
    delegateCalls (runWrapped r (before ++ after) w).world.trace
      = delegateCalls (runWrapped r before w).world.trace ∧
    (runWrapped r (before ++ after) w).world.env.dlg = (runWrapped r before w).world.env.dlg ∧
    (runWrapped r before w).self = r ∧
    (runWrapped r (before ++ after) w).self = r := by
  obtain ⟨h1, h2, h3, _⟩ := runWrapped_of_cancelled r after (runWrapped r before w).world e hc hm
  rw [runWrapped_append]
  exact ⟨by rw [← h1], h2, h3, runWrapped_self r before w, rfl⟩

/-- C7, instantiated: a successful read, a cancellation, and then two reads
with a second call of the cancel function between them. -/
theorem cancelled_is_terminal_witness :
    cancelCtx.Err
        (runWrapped ⟨cancelCtx, sliceReader⟩ [Action.read [0, 0], Action.signal cancel]
          helloWorld).world.env.sig = some GoErr.Canceled ∧
    NoRevival cancelCtx [Action.read buf8, Action.signal cancel, Action.read []] ∧
    ((runWrapped ⟨cancelCtx, sliceReader⟩
        ([Action.read [0, 0], Action.signal cancel]
          ++ [Action.read buf8, Action.signal cancel, Action.read []]) helloWorld).results
      = (runWrapped ⟨cancelCtx, sliceReader⟩ [Action.read [0, 0], Action.signal cancel]
            helloWorld).results
          ++ (readsOf [Action.read buf8, Action.signal cancel, Action.read []]).map
              (fun p => ⟨p, 0, some GoErr.Canceled⟩) ∧
    delegateCalls (runWrapped ⟨cancelCtx, sliceReader⟩
        ([Action.read [0, 0], Action.signal cancel]
          ++ [Action.read buf8, Action.signal cancel, Action.read []]) helloWorld).world.trace
      = delegateCalls (runWrapped ⟨cancelCtx, sliceReader⟩
          [Action.read [0, 0], Action.signal cancel] helloWorld).world.trace ∧
    (runWrapped ⟨cancelCtx, sliceReader⟩
        ([Action.read [0, 0], Action.signal cancel]
          ++ [Action.read buf8, Action.signal cancel, Action.read []]) helloWorld).world.env.dlg
      = (runWrapped ⟨cancelCtx, sliceReader⟩ [Action.read [0, 0], Action.signal cancel]
          helloWorld).world.env.dlg ∧
    (runWrapped ⟨cancelCtx, sliceReader⟩ [Action.read [0, 0], Action.signal cancel]
        helloWorld).self = ⟨cancelCtx, sliceReader⟩ ∧
    (runWrapped ⟨cancelCtx, sliceReader⟩
        ([Action.read [0, 0], Action.signal cancel]
          ++ [Action.read buf8, Action.signal cancel, Action.read []]) helloWorld).self
      = ⟨cancelCtx, sliceReader⟩) :=
  ⟨by decide, ⟨cancel_keepsCancelled, trivial⟩,
    cancelled_is_terminal ⟨cancelCtx, sliceReader⟩ helloWorld
      [Action.read [0, 0], Action.signal cancel]
      [Action.read buf8, Action.signal cancel, Action.read []] GoErr.Canceled
      (by decide) ⟨cancel_keepsCancelled, trivial⟩⟩

end cancelreader
